import Mathlib

/-!
Verification development for the URL_Breaker repository.

The definitions below are shallow embeddings of the C++ sources:
* `OlThreadPool` embeds `ol::ThreadPool` from
  `Based_on_LD_PRELOAD/main/ol/include/ol_ThreadPool.h` (manager rebalancing,
  `addTask`, `submitTask`, `stop`, `worker` dispatch, both constructors);
* `OlBuffer` embeds the `ol::Buffer` framing layer (header `ol_Buffer.h`);
* `URLBreakerShim` embeds the LD_PRELOAD `connect` interposer and its
  `is_blocked` helper.

Machine integers are modelled as `Nat` (all the quantities involved are
`size_t` counters far below any overflow boundary in the properties proved);
task queues are modelled as `List Nat` of opaque task identifiers.
-/

namespace OlThreadPool

/-- Queue-full handling policy, from `ol_ThreadPool.h` `enum class QueueFullPolicy`. -/
inductive QueueFullPolicy where
  | kReject
  | kBlock
  | kTimeout
deriving DecidableEq, Repr

/-- Scale-up thread count computed by `ThreadPool<true>::manager`:
`needThreads = min(maxThreads - workerCount, ceil(taskCount / workerCount))`
then capped by `workerCount / 2 + 1` (all in `size_t` arithmetic, division
truncating). -/
def scaleUpNeed (taskCount workerCount maxThreads : Nat) : Nat :=
  min (min (maxThreads - workerCount) ((taskCount + workerCount - 1) / workerCount))
      (workerCount / 2 + 1)

/-- One rebalancing decision of `ThreadPool<true>::manager` (§2 of its loop):
returns `(threads added, workerExitNum signalled)`.  Scale-up is attempted
first (`taskCount > workerCount * 2 && workerCount < maxThreads`); only
otherwise (`else if`) scale-down is considered
(`idleCount > workerCount / 2 && workerCount > max(minThreads, 1)`), which
signals `min(workerCount - max(minThreads,1), idleCount - workerCount/2)`
threads to self-terminate. -/
def managerRebalance (taskCount workerCount idleCount minThreads maxThreads : Nat) :
    Nat × Nat :=
  if workerCount * 2 < taskCount ∧ workerCount < maxThreads then
    (scaleUpNeed taskCount workerCount maxThreads, 0)
  else if workerCount / 2 < idleCount ∧ max minThreads 1 < workerCount then
    (0, min (workerCount - max minThreads 1) (idleCount - workerCount / 2))
  else
    (0, 0)

/-- Outcome of the single condition-variable wait `addTask` can perform on a
full queue (`m_taskQueueNotFull_condVar`).  `ok stopNow queueNow` models the
wait returning with its predicate satisfied, exposing the stop flag and queue
contents observed at wake-up (the predicate of the C++ wait guarantees
`queueNow.length < maxQueueSize ∨ stopNow = true`, which theorems take as a
hypothesis); `timedOut` models `wait_for` expiring with the predicate still
false (only possible under the timeout policy). -/
inductive WaitOutcome where
  | ok (stopNow : Bool) (queueNow : List Nat)
  | timedOut
deriving DecidableEq, Repr

/-- `ThreadPool::addTask`: returns `(success, queue after the call, stop flag
last observed)`.  Mirrors the source: an already-stopped pool fails at once;
on a bounded full queue the policy decides between immediate rejection,
waiting for a slot or stop, and a timed wait; otherwise the task is pushed
at the back of the queue.  The `while` loop runs at most one wait, because
the wait predicate is the exact negation of the loop condition and both are
evaluated under the queue lock. -/
def addTask (t : Nat) (stop : Bool) (q : List Nat) (maxQ : Nat)
    (policy : QueueFullPolicy) (w : WaitOutcome) : Bool × List Nat × Bool :=
  if stop then (false, q, true)
  else if 0 < maxQ ∧ maxQ ≤ q.length then
    match policy, w with
    | .kReject, _ => (false, q, false)
    | .kBlock, .ok s q2 => if s then (false, q2, true) else (true, q2 ++ [t], false)
    | .kBlock, .timedOut => (false, q, false)
    | .kTimeout, .ok s q2 => if s then (false, q2, true) else (true, q2 ++ [t], false)
    | .kTimeout, .timedOut => (false, q, false)
  else (true, q ++ [t], false)

/-- The distinguished exceptions `submitTask` stores in the returned future on
enqueue failure (`std::runtime_error` with the corresponding message in the
source). -/
inductive SubmitError where
  | stopped      ---< "ThreadPool has been stopped"
  | rejectFull   ---< "Task queue full (Reject policy)"
  | blockStopped ---< "Task submission failed in block policy (ThreadPool stopped)"
  | timeoutFull  ---< "Task queue full (Timeout policy)"
deriving DecidableEq, Repr

/-- The future half of `submitTask`'s return value: `pending` means the
wrapped `packaged_task` was placed on the queue and the future will yield its
result; `failed e` means the future holds the distinguished exception `e`. -/
inductive FutureResult where
  | pending
  | failed (e : SubmitError)
deriving DecidableEq, Repr

/-- `ThreadPool::submitTask`: wraps the task and calls `addTask`; on failure
it re-reads `m_stop` (the third component of `addTask`'s result — `m_stop`
only ever goes from false to true) and otherwise keys the error on the queue
policy, returning `(false, future holding the error)`; on success it returns
`(true, pending future)`.  The second component is the queue after the call. -/
def submitTask (t : Nat) (stop : Bool) (q : List Nat) (maxQ : Nat)
    (policy : QueueFullPolicy) (w : WaitOutcome) : (Bool × FutureResult) × List Nat :=
  let r := addTask t stop q maxQ policy w
  if r.1 then ((true, FutureResult.pending), r.2.1)
  else if r.2.2 then ((false, FutureResult.failed SubmitError.stopped), r.2.1)
  else
    match policy with
    | .kReject => ((false, FutureResult.failed SubmitError.rejectFull), r.2.1)
    | .kBlock => ((false, FutureResult.failed SubmitError.blockStopped), r.2.1)
    | .kTimeout => ((false, FutureResult.failed SubmitError.timeoutFull), r.2.1)

/-- Observable state of a fixed-mode pool right after construction: stop
flag, worker count, task queue, queue bound and current queue-full policy
(the constructor leaves the default `kReject`). -/
structure FixedPool where
  stop : Bool
  workers : Nat
  queue : List Nat
  maxQueueSize : Nat
  policy : QueueFullPolicy
deriving DecidableEq, Repr

/-- `ThreadPool<false>::ThreadPool(threadNum, maxQueueSize)`: `threadNum == 0`
sets `m_stop = true` and returns before creating any worker; otherwise
`threadNum` workers are started with the pool running. -/
def mkFixedPool (threadNum maxQueueSize : Nat) : FixedPool :=
  if threadNum = 0 then ⟨true, 0, [], maxQueueSize, .kReject⟩
  else ⟨false, threadNum, [], maxQueueSize, .kReject⟩

/-- `ThreadPool::isRunning`: `!m_stop`. -/
def isRunning (p : FixedPool) : Bool := !p.stop

/-- `addTask` invoked on a `FixedPool`, threading the pool's own stop flag,
queue, bound and policy through `addTask`. -/
def poolAddTask (p : FixedPool) (t : Nat) (w : WaitOutcome) : Bool × FixedPool :=
  let r := addTask t p.stop p.queue p.maxQueueSize p.policy w
  (r.1, { p with queue := r.2.1 })

/-- Observable result of the dynamic-mode constructor: whether it threw
`std::invalid_argument`, the stop flag, the number of worker threads created,
and whether the manager thread was started. -/
structure DynPoolInit where
  threw : Bool
  stop : Bool
  workers : Nat
  manager : Bool
deriving DecidableEq, Repr

/-- `ThreadPool<true>::ThreadPool(minThreadNum, maxThreadNum, ...)`: throws
when `minThreadNum > maxThreadNum` (before creating anything); initializes
stopped when `minThreadNum == maxThreadNum && minThreadNum == 0`; otherwise
starts `minThreadNum == 0 ? 1 : minThreadNum` workers plus the manager. -/
def mkDynamicPool (minThreadNum maxThreadNum : Nat) : DynPoolInit :=
  if maxThreadNum < minThreadNum then ⟨true, false, 0, false⟩
  else if minThreadNum = maxThreadNum ∧ minThreadNum = 0 then ⟨false, true, 0, false⟩
  else ⟨false, false, if minThreadNum = 0 then 1 else minThreadNum, true⟩

/-- Pool state relevant to `ThreadPool::stop`: the atomic stop flag, the
worker container, the dynamic-mode worker-exit id deque and the task queue. -/
structure PoolStopState where
  stopFlag : Bool
  workers : List Nat
  exitDeque : List Nat
  taskQueue : List Nat
deriving DecidableEq, Repr

/-- `ThreadPool::stop`: the `compare_exchange_strong` on `m_stop` makes a
second call return immediately; the first call joins and clears the worker
container and (dynamic mode) clears the exit deque.  The task queue is never
touched, so tasks still queued when `stop()` runs are left behind unrun. -/
def stopPool (s : PoolStopState) : PoolStopState :=
  if s.stopFlag then s
  else ⟨true, [], [], s.taskQueue⟩

/-- Behaviour of one task as seen by the worker's dispatch boundary: it
returns normally, throws something derived from `std::exception` carrying
`msg`, or throws a non-`std::exception` value. -/
inductive TaskOutcome where
  | ok
  | stdExn (msg : String)
  | otherExn
deriving DecidableEq, Repr

/-- An exception value escaping a task. -/
inductive TaskExn where
  | std (msg : String)
  | other
deriving DecidableEq, Repr

/-- Raw execution of a task: `Except.error` models an escaping exception. -/
def execTask : TaskOutcome → Except TaskExn Unit
  | .ok => Except.ok ()
  | .stdExn m => Except.error (TaskExn.std m)
  | .otherExn => Except.error TaskExn.other

/-- The dispatch boundary inside `ThreadPool::worker`: `try { task(); }
catch (const std::exception& e) { fprintf(stderr, "Task error: ...") }
catch (...) { fprintf(stderr, "Unknown task error") }`.  Both handlers turn
the exception into a log line; no exception propagates out, so the function
is total into `List String`. -/
def dispatchTask (t : TaskOutcome) : List String :=
  match execTask t with
  | Except.ok _ => []
  | Except.error (TaskExn.std m) => ["Task error: " ++ m]
  | Except.error TaskExn.other => ["Unknown task error"]

/-- The worker's wait/pop/execute loop over the sequence of tasks it pops,
in the `Except` monad: an uncaught exception would abort the whole loop with
`Except.error`.  Returns the number of tasks executed and the log lines. -/
def workerRun : List TaskOutcome → Except TaskExn (Nat × List String)
  | [] => Except.ok (0, [])
  | t :: rest =>
    let logs := dispatchTask t
    match workerRun rest with
    | Except.ok r => Except.ok (r.1 + 1, logs ++ r.2)
    | Except.error e => Except.error e

end OlThreadPool

namespace OlBuffer

/-- Modelled from the spec: the implementation of `ol::Buffer` (framing
mode 1) is not in the sources, only its header `ol_Buffer.h`; per §4.5/§6 of
the spec every message on the wire is `[4-byte length][payload]`.  The byte
order inside the header is not fixed by the spec; big-endian base-256 is
chosen here (the round-trip property is independent of that choice).  Bytes
are `Nat` values below 256. -/
def encodeLen (n : Nat) : List Nat :=
  [n / 2 ^ 24 % 256, n / 2 ^ 16 % 256, n / 2 ^ 8 % 256, n % 256]

/-- Modelled from the spec: reads the 4-byte length header back. -/
def decodeLen (b : List Nat) : Nat :=
  match b with
  | [b0, b1, b2, b3] => b0 * 2 ^ 24 + b1 * 2 ^ 16 + b2 * 2 ^ 8 + b3
  | _ => 0

/-- Modelled from the spec: `Buffer::append` appends raw bytes to `m_buf`. -/
def append (buf data : List Nat) : List Nat := buf ++ data

/-- Modelled from the spec: the framed image of one message under mode 1 —
what `Buffer::appendWithSep` adds to the buffer: the 4-byte length header
followed by the payload. -/
def frame (data : List Nat) : List Nat := encodeLen data.length ++ data

/-- Modelled from the spec: `Buffer::appendWithSep` appends the length
header and then the payload. -/
def appendWithSep (buf data : List Nat) : List Nat := buf ++ frame data

/-- Modelled from the spec: `Buffer::pickMessage` under framing mode 1.
It never blocks: it returns `(none, buf)` — failure with the buffer left
unchanged — when fewer than 4 bytes are present or the declared payload has
not fully accumulated; otherwise it extracts the payload and erases the
header and payload from the buffer, returning `(some message, rest)`. -/
def pickMessage (buf : List Nat) : Option (List Nat) × List Nat :=
  if buf.length < 4 then (none, buf)
  else
    let len := decodeLen (buf.take 4)
    if buf.length < 4 + len then (none, buf)
    else (some ((buf.drop 4).take len), buf.drop (4 + len))

/-- `n` successive `pickMessage` calls against a buffer: returns the
messages extracted (stopping early at the first failed call) and the buffer
contents after the calls. -/
def drainSteps : Nat → List Nat → List (List Nat) × List Nat
  | 0, buf => ([], buf)
  | n + 1, buf =>
    match pickMessage buf with
    | (none, b) => ([], b)
    | (some m, rest) =>
      let r := drainSteps n rest
      (m :: r.1, r.2)

end OlBuffer

namespace URLBreakerShim

/-- One entry of `g_Blacklist` from the LD_PRELOAD shim: the stored
`InetAddr`'s ip text and port (0 meaning the `*` port wildcard), the original
url text, and the `is_domain` flag. -/
structure BlacklistEntry where
  ip : String
  port : Nat
  url : String
  isDomain : Bool

/-- The shim's ambient state when `connect` runs: whether
`is_proc_whitelisted()` holds for the calling process, the configured
intercept window (`g_InterceptTime`, HHMM encoded) and the current HHMM
time, the blacklist, and the DNS resolution oracle standing for
`resolve_url_to_ips` (empty list = resolution failure). -/
structure ShimEnv where
  whitelisted : Bool
  startTime : Nat
  endTime : Nat
  currentHHMM : Nat
  blacklist : List BlacklistEntry
  resolve : String → List String

/-- `is_in_intercept_time`: wraps across midnight when `start > end`. -/
def inInterceptTime (start endT current : Nat) : Bool :=
  if endT < start then decide (start ≤ current) || decide (current ≤ endT)
  else decide (start ≤ current) && decide (current ≤ endT)

/-- Port comparison used throughout the shim: entry port 0 is a wildcard. -/
def portMatches (entryPort targetPort : Nat) : Bool :=
  entryPort == 0 || entryPort == targetPort

/-- One blacklist entry's match test, as in the body of `is_blocked`'s loop:
(1) port match and then `*` wildcard or exact ip equality; (2) for a domain
entry with a nonempty url, port match and membership of the target ip in the
freshly resolved address list. -/
def entryMatches (resolve : String → List String) (e : BlacklistEntry)
    (targetIp : String) (targetPort : Nat) : Bool :=
  (portMatches e.port targetPort && (e.ip == "*" || e.ip == targetIp)) ||
  (e.isDomain && !e.url.isEmpty && portMatches e.port targetPort &&
    (resolve e.url).contains targetIp)

/-- `is_blocked`: outside the intercept window everything passes; inside it
the target is blocked exactly when some blacklist entry matches. -/
def isBlocked (env : ShimEnv) (targetIp : String) (targetPort : Nat) : Bool :=
  inInterceptTime env.startTime env.endTime env.currentHHMM &&
  env.blacklist.any fun e => entryMatches env.resolve e targetIp targetPort

/-- `AF_INET` on Linux. -/
def AF_INET : Nat := 2

/-- `AF_INET6` on Linux. -/
def AF_INET6 : Nat := 10

/-- `ECONNREFUSED` on Linux. -/
def ECONNREFUSED : Nat := 111

/-- Observable outcome of the interposed `connect`: the return value, the
errno it set (if any), and whether the original `connect` obtained through
`dlsym(RTLD_NEXT, ...)` was invoked. -/
structure ConnectOutcome where
  ret : Int
  errnoSet : Option Nat
  origCalled : Bool
deriving DecidableEq, Repr

/-- The interposed `connect` (with the original symbol resolved): a
whitelisted process is passed straight through; a non-IP address family is
passed through; a blocked target returns `-1` with `errno = ECONNREFUSED`
without invoking the original; anything else is delegated to the original
`connect` whose result is returned. -/
def connectShim (env : ShimEnv) (family : Nat) (targetIp : String)
    (targetPort : Nat) (origResult : Int) : ConnectOutcome :=
  if env.whitelisted then ⟨origResult, none, true⟩
  else if family ≠ AF_INET ∧ family ≠ AF_INET6 then ⟨origResult, none, true⟩
  else if isBlocked env targetIp targetPort then ⟨-1, some ECONNREFUSED, false⟩
  else ⟨origResult, none, true⟩

end URLBreakerShim

/-- C1 counterexample: with 2 workers, 5 pending tasks, max 10 threads, the
manager adds 2 threads in one cycle, which is 100% of the current worker
count, refuting the claimed "at most 50% of the current worker count" bound. -/
theorem managerRebalance_scale_up_fifty_percent_counterexample :
    (OlThreadPool.managerRebalance 5 2 0 0 10).1 = 2 ∧
    ¬ (2 * (OlThreadPool.managerRebalance 5 2 0 0 10).1 ≤ 2) := by
  decide

/-- C1 (amended): in a manager rebalancing cycle, threads are added only when
the pending task count exceeds twice the worker count and the worker count is
below the configured maximum; the number added in one cycle is at most
`workerCount / 2 + 1` (truncating division — this can exceed 50% of the
current worker count at small counts); and whenever the worker count is at
most the maximum, the resulting worker count never exceeds the maximum. -/
theorem managerRebalance_scale_up_bounds (t w i mn mx : Nat) :
    (¬ (w * 2 < t ∧ w < mx) → (OlThreadPool.managerRebalance t w i mn mx).1 = 0) ∧
    (OlThreadPool.managerRebalance t w i mn mx).1 ≤ w / 2 + 1 ∧
    (w ≤ mx → w + (OlThreadPool.managerRebalance t w i mn mx).1 ≤ mx) := by
  by_cases h1 : w * 2 < t ∧ w < mx
  · simp only [OlThreadPool.managerRebalance, OlThreadPool.scaleUpNeed, if_pos h1]
    exact ⟨fun hc => absurd h1 hc, by omega, fun hw => by omega⟩
  · simp only [OlThreadPool.managerRebalance, if_neg h1]
    split <;> simp

/-- Witness for C1's amended theorem at taskCount 5, workerCount 2,
maxThreads 10: the guard holds, 2 ≤ 2/2+1 threads are added, and the
resulting count 4 stays at or below the maximum 10. -/
theorem managerRebalance_scale_up_bounds_witness :
    (OlThreadPool.managerRebalance 5 2 0 0 10).1 ≤ 2 / 2 + 1 ∧
    2 + (OlThreadPool.managerRebalance 5 2 0 0 10).1 ≤ 10 :=
  ⟨(managerRebalance_scale_up_bounds 5 2 0 0 10).2.1,
   (managerRebalance_scale_up_bounds 5 2 0 0 10).2.2 (by decide)⟩

/-- C2: the manager initiates scale-down (signals a positive `workerExitNum`)
only when the idle count exceeds half the worker count and the worker count
exceeds `max(minThreads, 1)`; the signalled number never exceeds
`workerCount - max(minThreads, 1)`; and after any number `k` of workers have
each consumed one decrement of the signal, the worker count `w - k` never
drops below `max(minThreads, 1)` — for every worker count, idle count and
`minThreads`, including the small counts where integer division rounds. -/
theorem managerRebalance_scale_down_floor (t w i mn mx k : Nat)
    (hk : k ≤ (OlThreadPool.managerRebalance t w i mn mx).2) :
    (0 < (OlThreadPool.managerRebalance t w i mn mx).2 →
      w / 2 < i ∧ max mn 1 < w) ∧
    (OlThreadPool.managerRebalance t w i mn mx).2 ≤ w - max mn 1 ∧
    (0 < (OlThreadPool.managerRebalance t w i mn mx).2 → max mn 1 ≤ w - k) := by
  by_cases h1 : w * 2 < t ∧ w < mx
  · simp [OlThreadPool.managerRebalance, h1]
  · by_cases h2 : w / 2 < i ∧ max mn 1 < w
    · simp only [OlThreadPool.managerRebalance, if_neg h1, if_pos h2] at hk ⊢
      refine ⟨fun _ => h2, by omega, fun hpos => ?_⟩
      omega
    · simp only [OlThreadPool.managerRebalance, if_neg h1, if_neg h2]
      simp

/-- Witness for C2 at workerCount 5, idleCount 5, minThreads 1: the manager
signals 3 exits, and after all 3 are consumed the worker count 2 stays at or
above the floor `max(1, 1) = 1`. -/
theorem managerRebalance_scale_down_floor_witness :
    (0 < (OlThreadPool.managerRebalance 0 5 5 1 8).2 →
      5 / 2 < 5 ∧ max 1 1 < 5) ∧
    (OlThreadPool.managerRebalance 0 5 5 1 8).2 ≤ 5 - max 1 1 ∧
    (0 < (OlThreadPool.managerRebalance 0 5 5 1 8).2 → max 1 1 ≤ 5 - 3) :=
  managerRebalance_scale_down_floor 0 5 5 1 8 3 (by decide)

/-- C3: for a running pool whose bounded queue is full: under the reject
policy `addTask` fails immediately, independent of any wait outcome, leaving
the queue unchanged; under the block policy, once the wait ends with a free
slot and the pool still running, the task is enqueued and `addTask` returns
true, while a wait ended by the pool stopping yields false; under the
timeout policy, if no slot freed within the configured duration the wait
times out and `addTask` returns false with the queue unchanged. -/
theorem addTask_full_queue_policies (t : Nat) (q : List Nat) (maxQ : Nat)
    (hpos : 0 < maxQ) (hfull : maxQ ≤ q.length) :
    (∀ w, OlThreadPool.addTask t false q maxQ .kReject w = (false, q, false)) ∧
    (∀ q2 : List Nat, q2.length < maxQ →
      OlThreadPool.addTask t false q maxQ .kBlock (.ok false q2) =
        (true, q2 ++ [t], false)) ∧
    (∀ q2 : List Nat,
      OlThreadPool.addTask t false q maxQ .kBlock (.ok true q2) = (false, q2, true)) ∧
    OlThreadPool.addTask t false q maxQ .kTimeout .timedOut = (false, q, false) := by
  refine ⟨fun w => ?_, fun q2 h2 => ?_, fun q2 => ?_, ?_⟩ <;>
    simp [OlThreadPool.addTask, hpos, hfull]

/-- Witness for C3 at queue `[1, 2, 3]` with capacity 3: reject fails at
once, a block wait ending with queue `[1, 2]` enqueues task 7, and a timed
out wait fails with the queue unchanged. -/
theorem addTask_full_queue_policies_witness :
    OlThreadPool.addTask 7 false [1, 2, 3] 3 .kReject .timedOut =
      (false, [1, 2, 3], false) ∧
    OlThreadPool.addTask 7 false [1, 2, 3] 3 .kBlock (.ok false [1, 2]) =
      (true, [1, 2, 7], false) ∧
    OlThreadPool.addTask 7 false [1, 2, 3] 3 .kTimeout .timedOut =
      (false, [1, 2, 3], false) :=
  ⟨(addTask_full_queue_policies 7 [1, 2, 3] 3 (by decide) (by decide)).1 .timedOut,
   (addTask_full_queue_policies 7 [1, 2, 3] 3 (by decide) (by decide)).2.1 [1, 2] (by decide),
   (addTask_full_queue_policies 7 [1, 2, 3] 3 (by decide) (by decide)).2.2.2⟩

/-- C4: `ThreadPool::stop` is idempotent: after any call the stop flag is
set; a second call is a no-op; calling it on an already-stopped pool changes
nothing; and the task queue is left untouched (tasks still queued at stop
are simply left behind, not run). -/
theorem stopPool_idempotent (s : OlThreadPool.PoolStopState) :
    (OlThreadPool.stopPool s).stopFlag = true ∧
    OlThreadPool.stopPool (OlThreadPool.stopPool s) = OlThreadPool.stopPool s ∧
    (s.stopFlag = true → OlThreadPool.stopPool s = s) ∧
    (OlThreadPool.stopPool s).taskQueue = s.taskQueue := by
  by_cases h : s.stopFlag = true <;> simp [OlThreadPool.stopPool, h]

/-- Witness for C4: on a pool whose stop flag is already set, `stop` leaves
the state unchanged. -/
theorem stopPool_idempotent_witness :
    OlThreadPool.stopPool ⟨true, [1], [2], [5]⟩ =
      (⟨true, [1], [2], [5]⟩ : OlThreadPool.PoolStopState) :=
  (stopPool_idempotent ⟨true, [1], [2], [5]⟩).2.2.1 rfl

/-- C5: whenever `submitTask` fails to enqueue it returns `false` paired
with a future holding a distinguished error — `stopped` when the pool is or
became stopped, `rejectFull` on a full queue under the reject policy,
`timeoutFull` on timeout expiry — and a `true` return implies the wrapped
task was actually placed on the queue: no task is ever silently dropped. -/
theorem submitTask_failure_distinguished (t : Nat) (stop : Bool) (q : List Nat)
    (maxQ : Nat) (policy : OlThreadPool.QueueFullPolicy) (w : OlThreadPool.WaitOutcome) :
    ((OlThreadPool.submitTask t stop q maxQ policy w).1.1 = true →
      (OlThreadPool.submitTask t stop q maxQ policy w).1.2 =
        OlThreadPool.FutureResult.pending ∧
      t ∈ (OlThreadPool.submitTask t stop q maxQ policy w).2) ∧
    ((OlThreadPool.submitTask t stop q maxQ policy w).1.1 = false →
      ∃ e, (OlThreadPool.submitTask t stop q maxQ policy w).1.2 =
        OlThreadPool.FutureResult.failed e) ∧
    (stop = true →
      (OlThreadPool.submitTask t stop q maxQ policy w).1 =
        (false, OlThreadPool.FutureResult.failed OlThreadPool.SubmitError.stopped)) ∧
    (stop = false → 0 < maxQ → maxQ ≤ q.length →
      (policy = .kReject →
        (OlThreadPool.submitTask t stop q maxQ policy w).1 =
          (false, OlThreadPool.FutureResult.failed OlThreadPool.SubmitError.rejectFull)) ∧
      (policy = .kTimeout → w = .timedOut →
        (OlThreadPool.submitTask t stop q maxQ policy w).1 =
          (false, OlThreadPool.FutureResult.failed OlThreadPool.SubmitError.timeoutFull))) := by
  cases stop <;> cases policy <;> rcases w with ⟨s, q2⟩ | _ <;> try cases s
  all_goals by_cases hfull : 0 < maxQ ∧ maxQ ≤ q.length
  all_goals simp [OlThreadPool.submitTask, OlThreadPool.addTask, hfull]
  all_goals omega

/-- Witness for C5: on a running pool with full queue `[1, 2, 3]` of
capacity 3, under the reject policy `submitTask` returns false with the
`rejectFull` error in the future. -/
theorem submitTask_failure_distinguished_witness :
    (OlThreadPool.submitTask 7 false [1, 2, 3] 3 .kReject .timedOut).1 =
      (false, OlThreadPool.FutureResult.failed OlThreadPool.SubmitError.rejectFull) :=
  ((submitTask_failure_distinguished 7 false [1, 2, 3] 3 .kReject .timedOut).2.2.2
    rfl (by decide) (by decide)).1 rfl

/-- C6: the worker loop never lets an exception escaping a task propagate —
`workerRun` always returns `Except.ok`, having executed every task in its
list (so the loop continues past throwing tasks rather than terminating) —
and each escaping exception is logged: `std::exception`s as
"Task error: <msg>", anything else as "Unknown task error". -/
theorem workerRun_swallows_task_exceptions (tasks : List OlThreadPool.TaskOutcome) :
    OlThreadPool.workerRun tasks =
      Except.ok (tasks.length, tasks.flatMap OlThreadPool.dispatchTask) ∧
    (∀ m : String, OlThreadPool.TaskOutcome.stdExn m ∈ tasks →
      ("Task error: " ++ m) ∈ tasks.flatMap OlThreadPool.dispatchTask) ∧
    (OlThreadPool.TaskOutcome.otherExn ∈ tasks →
      "Unknown task error" ∈ tasks.flatMap OlThreadPool.dispatchTask) := by
  refine ⟨?_, fun m hm => List.mem_flatMap.mpr ⟨_, hm, by
      simp [OlThreadPool.dispatchTask, OlThreadPool.execTask]⟩,
    fun hm => List.mem_flatMap.mpr ⟨_, hm, by
      simp [OlThreadPool.dispatchTask, OlThreadPool.execTask]⟩⟩
  induction tasks with
  | nil => simp [OlThreadPool.workerRun]
  | cons t rest ih =>
    simp [OlThreadPool.workerRun, ih, List.flatMap_cons, Nat.add_comm]

/-- Witness for C6 on the task list [normal, throwing std::exception "boom",
throwing non-std value]: the loop completes all three tasks and both
exception log lines appear. -/
theorem workerRun_swallows_task_exceptions_witness :
    OlThreadPool.workerRun
      [OlThreadPool.TaskOutcome.ok, OlThreadPool.TaskOutcome.stdExn "boom",
       OlThreadPool.TaskOutcome.otherExn] =
      Except.ok (3, ["Task error: boom", "Unknown task error"]) ∧
    ("Task error: " ++ "boom") ∈
      ([OlThreadPool.TaskOutcome.ok, OlThreadPool.TaskOutcome.stdExn "boom",
        OlThreadPool.TaskOutcome.otherExn].flatMap OlThreadPool.dispatchTask) :=
  ⟨((workerRun_swallows_task_exceptions
      [OlThreadPool.TaskOutcome.ok, OlThreadPool.TaskOutcome.stdExn "boom",
       OlThreadPool.TaskOutcome.otherExn]).1).trans (by rfl),
   (workerRun_swallows_task_exceptions _).2.1 "boom" (by decide)⟩

/-- The 4-byte header round-trips every length below `2^32`. -/
theorem decodeLen_encodeLen (n : Nat) (h : n < 2 ^ 32) :
    OlBuffer.decodeLen (OlBuffer.encodeLen n) = n := by
  unfold OlBuffer.encodeLen OlBuffer.decodeLen
  norm_num
  omega

/-- `pickMessage` on a buffer beginning with one complete framed message
extracts exactly that message and erases exactly its bytes. -/
theorem pickMessage_frame (m rest : List Nat) (h : m.length < 2 ^ 32) :
    OlBuffer.pickMessage (OlBuffer.frame m ++ rest) = (some m, rest) := by
  have hlen : (OlBuffer.frame m ++ rest).length = 4 + m.length + rest.length := by
    simp [OlBuffer.frame, OlBuffer.encodeLen]
    omega
  have htake : (OlBuffer.frame m ++ rest).take 4 = OlBuffer.encodeLen m.length := rfl
  have hdrop4 : (OlBuffer.frame m ++ rest).drop 4 = m ++ rest := rfl
  have hdrop : (OlBuffer.frame m ++ rest).drop (4 + m.length) = rest := by
    have h2 : (OlBuffer.frame m ++ rest).drop (m.length + 4) = (m ++ rest).drop m.length := rfl
    rw [Nat.add_comm 4 m.length, h2, List.drop_left]
  have hdec := decodeLen_encodeLen m.length h
  have c1 : ¬ ((OlBuffer.frame m ++ rest).length < 4) := by omega
  have c2 : ¬ ((OlBuffer.frame m ++ rest).length < 4 + m.length) := by omega
  unfold OlBuffer.pickMessage
  simp only [htake, hdec, c1, c2, if_false, hdrop4, hdrop]
  simp [List.take_left]

/-- Draining `msgs.length` times from the concatenation of the framed
messages yields exactly the original messages and an empty buffer. -/
theorem drainSteps_flatten_frames (msgs : List (List Nat))
    (h : ∀ m ∈ msgs, m.length < 2 ^ 32) :
    OlBuffer.drainSteps msgs.length ((msgs.map OlBuffer.frame).flatten) = (msgs, []) := by
  induction msgs with
  | nil => simp [OlBuffer.drainSteps]
  | cons m rest ih =>
    have hm : m.length < 2 ^ 32 := h m (by simp)
    have hrest : ∀ x ∈ rest, x.length < 2 ^ 32 := fun x hx => h x (by simp [hx])
    simp only [List.map_cons, List.flatten_cons, List.length_cons]
    rw [OlBuffer.drainSteps, pickMessage_frame m _ hm]
    simp [ih hrest]

/-- Accumulating chunks with `Buffer::append` concatenates them. -/
theorem foldl_append_eq_flatten (acc : List Nat) (chunks : List (List Nat)) :
    List.foldl OlBuffer.append acc chunks = acc ++ chunks.flatten := by
  induction chunks generalizing acc with
  | nil => simp [OlBuffer.append]
  | cons c cs ih => simp [OlBuffer.append, List.foldl_cons, ih, List.append_assoc]

/-- C7: under framing mode 1, for any sequence of `N` messages and any
chunking of the framed byte stream across `append` calls, `N` successive
`pickMessage` calls extract exactly the `N` original messages, byte-equal
and in order, leaving the buffer empty (so the next call fails: exactly `N`
are extracted); and `pickMessage` never blocks — it returns failure with the
buffer left unchanged whenever no complete message has accumulated, in
particular on every strict prefix of a framed message. -/
theorem buffer_framing_round_trip (msgs chunks : List (List Nat))
    (hlen : ∀ m ∈ msgs, m.length < 2 ^ 32)
    (hchunks : chunks.flatten = (msgs.map OlBuffer.frame).flatten) :
    OlBuffer.drainSteps msgs.length (List.foldl OlBuffer.append [] chunks) = (msgs, []) ∧
    (OlBuffer.pickMessage []).1 = none ∧
    (∀ buf : List Nat, (OlBuffer.pickMessage buf).1 = none →
      (OlBuffer.pickMessage buf).2 = buf) ∧
    (∀ (m : List Nat) (k : Nat), m.length < 2 ^ 32 → k < (OlBuffer.frame m).length →
      OlBuffer.pickMessage ((OlBuffer.frame m).take k) =
        (none, (OlBuffer.frame m).take k)) := by
  refine ⟨?_, rfl, fun buf hb => ?_, fun m k hm hk => ?_⟩
  · rw [foldl_append_eq_flatten, List.nil_append, hchunks]
    exact drainSteps_flatten_frames msgs hlen
  · by_cases h4 : buf.length < 4
    · simp [OlBuffer.pickMessage, h4]
    · by_cases h5 : buf.length < 4 + OlBuffer.decodeLen (buf.take 4)
      · simp [OlBuffer.pickMessage, h4, h5]
      · simp [OlBuffer.pickMessage, h4, h5] at hb
  · have hfl : (OlBuffer.frame m).length = 4 + m.length := by
      simp [OlBuffer.frame, OlBuffer.encodeLen]
      omega
    by_cases hk4 : k < 4
    · have hsh : ((OlBuffer.frame m).take k).length < 4 := by
        simp only [List.length_take]
        omega
      simp only [OlBuffer.pickMessage]
      rw [if_pos hsh]
    · have htt : ((OlBuffer.frame m).take k).take 4 = OlBuffer.encodeLen m.length := by
        rw [List.take_take]
        have hmin : min 4 k = 4 := by omega
        rw [hmin]
        rfl
      have hlt : ((OlBuffer.frame m).take k).length = k := by
        simp only [List.length_take]
        omega
      have hnot4 : ¬ (((OlBuffer.frame m).take k).length < 4) := by omega
      have hcond : ((OlBuffer.frame m).take k).length <
          4 + OlBuffer.decodeLen (((OlBuffer.frame m).take k).take 4) := by
        rw [htt, decodeLen_encodeLen _ hm, hlt]
        omega
      simp only [OlBuffer.pickMessage]
      rw [if_neg hnot4, if_pos hcond]

/-- Witness for C7: the two messages `[10, 20]` and `[30]`, framed and
chunked unevenly across three appends, are extracted back exactly, and
`pickMessage` on the first three bytes of a frame fails leaving them in
place. -/
theorem buffer_framing_round_trip_witness :
    OlBuffer.drainSteps 2
      (List.foldl OlBuffer.append []
        [[0, 0], [0, 2, 10, 20, 0], [0, 0, 1, 30]]) = ([[10, 20], [30]], []) ∧
    OlBuffer.pickMessage ((OlBuffer.frame [10, 20]).take 3) =
      (none, (OlBuffer.frame [10, 20]).take 3) :=
  ⟨(buffer_framing_round_trip [[10, 20], [30]]
      [[0, 0], [0, 2, 10, 20, 0], [0, 0, 1, 30]]
      (by decide) (by decide)).1,
   (buffer_framing_round_trip [[10, 20], [30]]
      [[0, 0], [0, 2, 10, 20, 0], [0, 0, 1, 30]]
      (by decide) (by decide)).2.2.2 [10, 20] 3 (by decide) (by decide)⟩

/-- C8: the interposed `connect` returns `-1` with `errno = ECONNREFUSED`
without invoking the original `connect` exactly when the calling process is
not whitelisted, the address family is `AF_INET` or `AF_INET6`, and
`is_blocked` matches the target inside the intercept window; in every other
case (whitelisted process, non-IP family, or no blacklist match) it
delegates to the original `connect` and returns its result. -/
theorem connectShim_blocks_iff (env : URLBreakerShim.ShimEnv) (family : Nat)
    (ip : String) (port : Nat) (r : Int) :
    (env.whitelisted = false →
      (family = URLBreakerShim.AF_INET ∨ family = URLBreakerShim.AF_INET6) →
      URLBreakerShim.isBlocked env ip port = true →
      URLBreakerShim.connectShim env family ip port r =
        ⟨-1, some URLBreakerShim.ECONNREFUSED, false⟩) ∧
    (env.whitelisted = true ∨
      (family ≠ URLBreakerShim.AF_INET ∧ family ≠ URLBreakerShim.AF_INET6) ∨
      URLBreakerShim.isBlocked env ip port = false →
      URLBreakerShim.connectShim env family ip port r = ⟨r, none, true⟩) := by
  constructor
  · intro hw hf hb
    have hfam : ¬ (family ≠ URLBreakerShim.AF_INET ∧ family ≠ URLBreakerShim.AF_INET6) := by
      rcases hf with hf | hf <;> simp [hf]
    simp [URLBreakerShim.connectShim, hw, hfam, hb]
  · intro hcase
    rcases hcase with hw | ⟨h1, h2⟩ | hb
    · simp [URLBreakerShim.connectShim, hw]
    · by_cases hw : env.whitelisted = true
      · simp [URLBreakerShim.connectShim, hw]
      · simp [URLBreakerShim.connectShim, hw, h1, h2]
    · by_cases hw : env.whitelisted = true
      · simp [URLBreakerShim.connectShim, hw]
      · by_cases hf : family ≠ URLBreakerShim.AF_INET ∧ family ≠ URLBreakerShim.AF_INET6
        · simp [URLBreakerShim.connectShim, hw, hf]
        · simp [URLBreakerShim.connectShim, hw, hf, hb]

/-- Witness for C8: a non-whitelisted process connecting over `AF_INET` to
`1.2.3.4:80`, blacklisted all day, is refused with `ECONNREFUSED` and the
original `connect` is never called. -/
theorem connectShim_blocks_iff_witness :
    URLBreakerShim.connectShim
      ⟨false, 0, 2400, 1200, [⟨"1.2.3.4", 80, "", false⟩], fun _ => []⟩
      2 "1.2.3.4" 80 7 =
      ⟨-1, some URLBreakerShim.ECONNREFUSED, false⟩ :=
  (connectShim_blocks_iff
      ⟨false, 0, 2400, 1200, [⟨"1.2.3.4", 80, "", false⟩], fun _ => []⟩
      2 "1.2.3.4" 80 7).1 rfl (Or.inl rfl) (by decide)

/-- C9: the fixed-mode constructor called with `threadNum == 0` yields a
pool that is already stopped: no worker is created, `isRunning()` is false,
`addTask` fails leaving the queue empty, and `submitTask` against the pool's
state fails with the `stopped` error, enqueueing nothing. -/
theorem mkFixedPool_zero_threads_stopped (mq t : Nat) (w : OlThreadPool.WaitOutcome) :
    OlThreadPool.mkFixedPool 0 mq = ⟨true, 0, [], mq, .kReject⟩ ∧
    OlThreadPool.isRunning (OlThreadPool.mkFixedPool 0 mq) = false ∧
    (OlThreadPool.poolAddTask (OlThreadPool.mkFixedPool 0 mq) t w).1 = false ∧
    (OlThreadPool.poolAddTask (OlThreadPool.mkFixedPool 0 mq) t w).2.queue = [] ∧
    (OlThreadPool.submitTask t (OlThreadPool.mkFixedPool 0 mq).stop
        (OlThreadPool.mkFixedPool 0 mq).queue mq .kReject w).1 =
      (false, OlThreadPool.FutureResult.failed OlThreadPool.SubmitError.stopped) := by
  simp [OlThreadPool.mkFixedPool, OlThreadPool.isRunning, OlThreadPool.poolAddTask,
        OlThreadPool.addTask, OlThreadPool.submitTask]

/-- C10: the dynamic-mode constructor throws `std::invalid_argument` when
`minThreadNum > maxThreadNum`, creating no threads; with
`minThreadNum == maxThreadNum == 0` it initializes stopped without throwing
and creates nothing; otherwise it creates `max(minThreadNum, 1)` workers
plus the manager thread. -/
theorem mkDynamicPool_init (minT maxT : Nat) :
    (maxT < minT → OlThreadPool.mkDynamicPool minT maxT = ⟨true, false, 0, false⟩) ∧
    (minT = 0 → maxT = 0 → OlThreadPool.mkDynamicPool minT maxT = ⟨false, true, 0, false⟩) ∧
    (minT ≤ maxT → ¬ (minT = 0 ∧ maxT = 0) →
      OlThreadPool.mkDynamicPool minT maxT = ⟨false, false, max minT 1, true⟩) := by
  refine ⟨fun h => ?_, fun h0 hm => ?_, fun hle hne => ?_⟩
  · simp [OlThreadPool.mkDynamicPool, h]
  · subst h0; subst hm
    simp [OlThreadPool.mkDynamicPool]
  · have h1 : ¬ (maxT < minT) := by omega
    have h2 : ¬ (minT = maxT ∧ minT = 0) := by omega
    simp only [OlThreadPool.mkDynamicPool, if_neg h1, if_neg h2]
    have h3 : (if minT = 0 then 1 else minT) = max minT 1 := by
      by_cases hz : minT = 0
      · simp [hz]
      · simp [hz]
        omega
    rw [h3]

/-- Witness for C10: `(0, 0)` initializes stopped without creating threads,
and `(2, 4)` creates `max(2, 1) = 2` workers plus the manager. -/
theorem mkDynamicPool_init_witness :
    OlThreadPool.mkDynamicPool 0 0 = ⟨false, true, 0, false⟩ ∧
    OlThreadPool.mkDynamicPool 2 4 = ⟨false, false, max 2 1, true⟩ :=
  ⟨(mkDynamicPool_init 0 0).2.1 rfl rfl,
   (mkDynamicPool_init 2 4).2.2 (by decide) (by decide)⟩
